import Mathlib

/-!
Shallow embedding of the `useStateHistory` hook (bounded undo/redo history
with debounced localStorage persistence) from `src/unnamed/part_001` of the
repository, together with theorems settling the frozen claims about it.

Modelling conventions:
* The hook's two React state cells (`history : T[]`, `currentIndex`) form
  `HistState`.  One caller-issued operation (one event-handler invocation,
  followed by a re-render) is one Lean function application.
* React functional state updates are applied in dispatch order.  Inside
  `update`, `setHistory(updater)` is evaluated eagerly by React while the
  update queue is empty, so the `setCurrentIndex(prev => prev - 1)` issued
  from inside the updater (trim branch, line 154) is enqueued before the
  unconditional `setCurrentIndex(prev => Math.min(prev + 1, maxHistory - 1))`
  of line 163.  Hence the cursor after a trimming commit is
  `min currentIndex (maxHistory - 1)`, and after any other call the line-163
  update `min (currentIndex + 1) (maxHistory - 1)` applies -- including the
  serialized-equal branch, where the history updater returns the array
  unchanged but line 163 still runs.
* JavaScript `history[i]` for `i >= length` yields `undefined`; we model the
  value at the cursor as an `Option`.
* Timers (`setTimeout`/`clearTimeout`) are modelled as at most one pending
  `(deadline, value)` pair per instance; wall-clock instants are `Nat`
  milliseconds.  The single `localStorage` key of an instance is modelled as
  an `Option String` cell plus a log of every backend `set` call.
-/

namespace StateHistory

/-- Configuration options of the hook (lines 55-63): `maxHistory` cap,
initial value, the serializer pair, the JS truthiness test used on the
deserialized value at line 90, and the debounce window in ms. -/
structure Config (T : Type) where
  maxHistory : Nat
  initialData : T
  serialize : T → String
  deserialize : String → T
  jsTruthy : T → Bool
  debounceTime : Nat

/-- The two state cells of the hook: `history` (line 65) and
`currentIndex` (line 66). -/
structure HistState (T : Type) where
  history : List T
  currentIndex : Nat
deriving DecidableEq, Repr

/-- Initial state: `[initialData]` with cursor `0` (lines 65-66); also the
state produced by `clear` (lines 188-189). -/
def initState {T : Type} (cfg : Config T) : HistState T :=
  ⟨[cfg.initialData], 0⟩

/-- `history[currentIndex]` (line 136 / line 205); `none` models the
JavaScript `undefined` produced by an out-of-range index. -/
def currentData {T : Type} (s : HistState T) : Option T :=
  s.history[s.currentIndex]?

/-- The guard of line 143, `serialize(nextData) === serialize(currentData)`.
When the cursor is out of range `currentData` is `undefined`; with the
default JSON codec `serialize(undefined)` is not a string, so the strict
comparison with the string `serialize(nextData)` is false. -/
def sameAsCurrent {T : Type} (cfg : Config T) (next : T) (s : HistState T) : Bool :=
  match currentData s with
  | some cur => cfg.serialize next == cfg.serialize cur
  | none => false

/-- The committing branch of `update` (lines 148-161 plus the line 163 /
line 154 cursor updates, combined as described in the header): truncate to
`[0..currentIndex]`, push the new value, and drop the oldest snapshot when
the cap is exceeded. -/
def commitPush {T : Type} (maxHistory : Nat) (next : T) (s : HistState T) : HistState T :=
  if maxHistory < (s.history.take (s.currentIndex + 1) ++ [next]).length then
    ⟨(s.history.take (s.currentIndex + 1) ++ [next]).drop 1,
      min s.currentIndex (maxHistory - 1)⟩
  else
    ⟨s.history.take (s.currentIndex + 1) ++ [next],
      min (s.currentIndex + 1) (maxHistory - 1)⟩

/-- `update` (lines 133-166).  Note that when the serialized forms are equal
the history updater returns the array unchanged (lines 143-145) but the
unconditional `setCurrentIndex` of line 163 still moves the cursor. -/
def update {T : Type} (cfg : Config T) (next : T) (s : HistState T) : HistState T :=
  if sameAsCurrent cfg next s then
    { s with currentIndex := min (s.currentIndex + 1) (cfg.maxHistory - 1) }
  else
    commitPush cfg.maxHistory next s

/-- `undo` (lines 169-175): decrement the cursor when it is positive. -/
def undo {T : Type} (s : HistState T) : HistState T :=
  if 0 < s.currentIndex then { s with currentIndex := s.currentIndex - 1 } else s

/-- `redo` (lines 178-184): increment the cursor while strictly before the
last index. -/
def redo {T : Type} (s : HistState T) : HistState T :=
  if s.currentIndex < s.history.length - 1 then
    { s with currentIndex := s.currentIndex + 1 }
  else s

/-- `canUndo` (line 210). -/
def canUndo {T : Type} (s : HistState T) : Bool :=
  decide (0 < s.currentIndex)

/-- `canRedo` (line 211). -/
def canRedo {T : Type} (s : HistState T) : Bool :=
  decide (s.currentIndex < s.history.length - 1)

/-- Fold a list of `update` calls over a state, in call order. -/
def applyUpdates {T : Type} (cfg : Config T) (vs : List T) (s : HistState T) : HistState T :=
  vs.foldl (fun acc v => update cfg v acc) s

/-- The cursor/length well-formedness stated by claim C2: at least one
snapshot, and the cursor within `0..historyLength-1`. -/
def CursorOk {T : Type} (s : HistState T) : Prop :=
  1 ≤ s.history.length ∧ s.currentIndex + 1 ≤ s.history.length

instance {T : Type} (s : HistState T) : Decidable (CursorOk s) := by
  unfold CursorOk; infer_instance

/-- Resolution of the one-time initial load (lines 76-94): when a non-empty
string is stored (`!stored` at line 80 rejects both `null` and the empty
string), it is deserialized, and if the result is truthy and the component
is still mounted, the whole history is replaced by the single loaded
snapshot with cursor `0` (lines 90-93) -- regardless of any mutations
issued in between. -/
def loadResolve {T : Type} (cfg : Config T) (mounted : Bool) (stored : Option String)
    (s : HistState T) : HistState T :=
  match stored with
  | none => s
  | some str =>
      if str = "" then s
      else if cfg.jsTruthy (cfg.deserialize str) && mounted then
        ⟨[cfg.deserialize str], 0⟩
      else s

theorem loadResolve_some {T : Type} (cfg : Config T) (mounted : Bool) (str : String)
    (s : HistState T) :
    loadResolve cfg mounted (some str) s =
      if str = "" then s
      else if cfg.jsTruthy (cfg.deserialize str) && mounted then
        ⟨[cfg.deserialize str], 0⟩
      else s := rfl

/-- Executable stand-in for the default deserializer on the integer-valued
instantiations used in concrete evaluations (decimal digits, optional
leading minus). -/
def intOfString (str : String) : Int :=
  match str.data with
  | '-' :: cs => -(Int.ofNat (cs.foldl (fun n c => 10 * n + (c.toNat - 48)) 0))
  | cs => Int.ofNat (cs.foldl (fun n c => 10 * n + (c.toNat - 48)) 0)

/-- Concrete configuration used for the claim C1 evaluation. -/
def cfgC1 : Config Int :=
  ⟨100, 0, toString, intOfString, fun v => decide (v ≠ 0), 1000⟩

/-- Concrete configuration used for the claim C2 evaluation. -/
def cfgC2 : Config Int :=
  ⟨50, 5, toString, intOfString, fun v => decide (v ≠ 0), 1000⟩

/-- Claim C1: `update(x)` with `serialize(x) == serialize(current)` is
claimed to change neither the sequence nor the cursor.  Evaluating the code
at the failing input: from the freshly constructed state `([0], 0)` with
`maxHistory = 100`, calling `update 0` leaves the history untouched but
moves `currentIndex` from `0` to `1`, because the `setCurrentIndex` of
line 163 runs even when the serialized-equal branch of line 143 returns the
history unchanged. -/
theorem c1_equal_update_moves_cursor :
    sameAsCurrent cfgC1 0 (initState cfgC1) = true ∧
    (update cfgC1 0 (initState cfgC1)).history = (initState cfgC1).history ∧
    (initState cfgC1).currentIndex = 0 ∧
    (update cfgC1 0 (initState cfgC1)).currentIndex = 1 := by
  decide

/-- Claim C2: the cursor bound `0 ≤ currentIndex ≤ historyLength - 1` is
claimed to hold after every operation.  Evaluating the code at the failing
input: the fresh state `([5], 0)` satisfies the bound, but after
`update 5` (serialized-equal to the current value) the cursor is `1` while
the length is still `1`, so the bound fails and `data` is `undefined`. -/
theorem c2_cursor_invariant_broken :
    CursorOk (initState cfgC2) ∧
    ¬ CursorOk (update cfgC2 5 (initState cfgC2)) ∧
    currentData (update cfgC2 5 (initState cfgC2)) = none := by
  decide

/-! ## Helper lemmas about a single committing `update` -/

theorem sameAsCurrent_eq_false {T : Type} (cfg : Config T) {s : HistState T} {c : T}
    (hc : currentData s = some c) {v : T}
    (hne : cfg.serialize v ≠ cfg.serialize c) :
    sameAsCurrent cfg v s = false := by
  unfold sameAsCurrent
  rw [hc]
  exact beq_eq_false_iff_ne.mpr hne

theorem update_of_ne {T : Type} (cfg : Config T) {s : HistState T} {c : T}
    (hc : currentData s = some c) {v : T}
    (hne : cfg.serialize v ≠ cfg.serialize c) :
    update cfg v s = commitPush cfg.maxHistory v s := by
  unfold update
  rw [sameAsCurrent_eq_false cfg hc hne]
  simp

theorem take_succ_length {T : Type} {s : HistState T}
    (hcur : s.currentIndex + 1 ≤ s.history.length) :
    (s.history.take (s.currentIndex + 1)).length = s.currentIndex + 1 := by
  simp [List.length_take]
  omega

/-- A committing `update` with room left: truncate after the cursor, append,
advance the cursor by one. -/
theorem update_no_trim {T : Type} (cfg : Config T) {s : HistState T} {c : T}
    (hc : currentData s = some c) {v : T}
    (hne : cfg.serialize v ≠ cfg.serialize c)
    (hcur : s.currentIndex + 1 ≤ s.history.length)
    (hroom : s.currentIndex + 2 ≤ cfg.maxHistory) :
    update cfg v s = ⟨s.history.take (s.currentIndex + 1) ++ [v], s.currentIndex + 1⟩ := by
  rw [update_of_ne cfg hc hne]
  unfold commitPush
  rw [if_neg]
  · have hmin : min (s.currentIndex + 1) (cfg.maxHistory - 1) = s.currentIndex + 1 := by
      omega
    rw [hmin]
  · rw [List.length_append, take_succ_length hcur]
    simp
    omega

/-- A committing `update` at the capacity boundary: truncate, append, drop
the oldest snapshot, cursor clamped by the queued decrement and the line-163
`Math.min`. -/
theorem update_trim {T : Type} (cfg : Config T) {s : HistState T} {c : T}
    (hc : currentData s = some c) {v : T}
    (hne : cfg.serialize v ≠ cfg.serialize c)
    (hcur : s.currentIndex + 1 ≤ s.history.length)
    (htrim : cfg.maxHistory < s.currentIndex + 2) :
    update cfg v s = ⟨(s.history.take (s.currentIndex + 1) ++ [v]).drop 1,
      min s.currentIndex (cfg.maxHistory - 1)⟩ := by
  rw [update_of_ne cfg hc hne]
  unfold commitPush
  rw [if_pos]
  rw [List.length_append, take_succ_length hcur]
  simp
  omega

theorem nh_getElem_cursor {T : Type} {s : HistState T} {c : T}
    (hc : currentData s = some c) (v : T)
    (hcur : s.currentIndex + 1 ≤ s.history.length) :
    (s.history.take (s.currentIndex + 1) ++ [v])[s.currentIndex]? = some c := by
  rw [List.getElem?_append_left (by rw [take_succ_length hcur]; omega)]
  rw [List.getElem?_take_of_lt (by omega)]
  exact hc

theorem nh_getElem_next {T : Type} (s : HistState T) (v : T)
    (hcur : s.currentIndex + 1 ≤ s.history.length) :
    (s.history.take (s.currentIndex + 1) ++ [v])[s.currentIndex + 1]? = some v := by
  rw [List.getElem?_append_right (by rw [take_succ_length hcur])]
  rw [take_succ_length hcur]
  simp

theorem redo_eq_self {T : Type} {s : HistState T}
    (h : s.history.length ≤ s.currentIndex + 1) : redo s = s := by
  unfold redo
  rw [if_neg]
  omega

theorem redo_iter_eq_self {T : Type} {s : HistState T}
    (h : s.history.length ≤ s.currentIndex + 1) :
    ∀ k : Nat, redo^[k] s = s := by
  intro k
  induction k with
  | zero => rfl
  | succ k ih => rw [Function.iterate_succ_apply', ih, redo_eq_self h]

theorem currentData_mk {T : Type} (h : List T) (i : Nat) :
    currentData (⟨h, i⟩ : HistState T) = h[i]? := rfl

theorem undo_mk {T : Type} (h : List T) (i : Nat) :
    undo (⟨h, i⟩ : HistState T) = ⟨h, i - 1⟩ := by
  unfold undo
  by_cases hi : 0 < i
  · rw [if_pos hi]
  · rw [if_neg hi]
    have hz : i = 0 := by omega
    subst hz
    rfl

theorem redo_mk_lt {T : Type} (h : List T) (i : Nat) (hi : i < h.length - 1) :
    redo (⟨h, i⟩ : HistState T) = ⟨h, i + 1⟩ := by
  unfold redo
  rw [if_pos hi]

theorem canRedo_mk {T : Type} (h : List T) (i : Nat) :
    canRedo (⟨h, i⟩ : HistState T) = decide (i < h.length - 1) := rfl

theorem undo_history {T : Type} (s : HistState T) : (undo s).history = s.history := by
  unfold undo
  by_cases h : 0 < s.currentIndex
  · rw [if_pos h]
  · rw [if_neg h]

theorem undo_iter_history {T : Type} (s : HistState T) :
    ∀ k : Nat, (undo^[k] s).history = s.history := by
  intro k
  induction k with
  | zero => rfl
  | succ k ih => rw [Function.iterate_succ_apply', undo_history, ih]

/-! ## Claims C6 and C7 -/

/-- Concrete configuration for the C6 witness. -/
def cfgC6 : Config Int :=
  ⟨10, 0, toString, intOfString, fun v => decide (v ≠ 0), 1000⟩

/-- Claim C6: an `update` with a distinct value issued while the cursor is
strictly before the last index truncates the sequence to `[0..cursor]`
before appending, so afterwards `canRedo` is false and `redo` is the
identity forever: none of the discarded snapshots can ever be reached
again. -/
theorem c6_update_discards_redo_branch (T : Type) (cfg : Config T)
    (s : HistState T) (c v : T)
    (hmid : s.currentIndex + 1 < s.history.length)
    (hcap : s.history.length ≤ cfg.maxHistory)
    (hc : currentData s = some c)
    (hne : cfg.serialize v ≠ cfg.serialize c) :
    canRedo (update cfg v s) = false ∧
    (update cfg v s).history = s.history.take (s.currentIndex + 1) ++ [v] ∧
    ∀ k : Nat, redo^[k] (update cfg v s) = update cfg v s := by
  have hupd := update_no_trim cfg hc hne (by omega) (by omega)
  rw [hupd]
  have hlen : (s.history.take (s.currentIndex + 1) ++ [v]).length = s.currentIndex + 2 := by
    rw [List.length_append, take_succ_length (by omega)]
    simp
  refine ⟨?_, rfl, ?_⟩
  · unfold canRedo
    rw [hlen]
    simp
  · exact redo_iter_eq_self (by rw [hlen])

/-- Witness for C6 at a concrete mid-history state. -/
theorem c6_update_discards_redo_branch_witness :
    canRedo (update cfgC6 5 ⟨[0, 1, 2], 0⟩) = false ∧
    (update cfgC6 5 ⟨[0, 1, 2], 0⟩).history = ([0, 1, 2] : List Int).take 1 ++ [5] ∧
    ∀ k : Nat, redo^[k] (update cfgC6 5 ⟨[0, 1, 2], 0⟩) = update cfgC6 5 ⟨[0, 1, 2], 0⟩ :=
  c6_update_discards_redo_branch Int cfgC6 ⟨[0, 1, 2], 0⟩ 0 5 (by decide) (by decide)
    (by decide) (by decide)

/-- Concrete one-slot configuration refuting C7 as stated. -/
def cfgC7one : Config Int :=
  ⟨1, 0, toString, intOfString, fun v => decide (v ≠ 0), 1000⟩

/-- Counterexample to claim C7 as stated: with `maxHistory = 1` (a positive
capacity the spec allows), from current value `0`, `update 1` trims the
single old snapshot away, so the subsequent `undo` is a no-op and `data`
is `1`, not the previous value `0`. -/
theorem c7_counterexample :
    cfgC7one.serialize 1 ≠ cfgC7one.serialize 0 ∧
    currentData (⟨[0], 0⟩ : HistState Int) = some 0 ∧
    currentData (undo (update cfgC7one 1 ⟨[0], 0⟩)) = some 1 ∧
    some (1 : Int) ≠ some (0 : Int) := by
  decide

/-- Concrete configuration for the C7 witness. -/
def cfgC7 : Config Int :=
  ⟨100, 0, toString, intOfString, fun v => decide (v ≠ 0), 1000⟩

/-- Claim C7 amended: provided `maxHistory ≥ 2`, from any well-formed state
with current value `a` and any `b` with a different serialized form,
`update b` then `undo` restores `data = a`, and a further `redo` yields
`data = b`. -/
theorem c7_undo_redo_roundtrip_amended (T : Type) (cfg : Config T)
    (s : HistState T) (a b : T)
    (hmax : 2 ≤ cfg.maxHistory)
    (hcap : s.history.length ≤ cfg.maxHistory)
    (hcur : s.currentIndex + 1 ≤ s.history.length)
    (ha : currentData s = some a)
    (hne : cfg.serialize b ≠ cfg.serialize a) :
    currentData (undo (update cfg b s)) = some a ∧
    currentData (redo (undo (update cfg b s))) = some b := by
  by_cases htrim : cfg.maxHistory < s.currentIndex + 2
  · -- capacity boundary: cursor must be at maxHistory - 1 ≥ 1
    have hipos : 0 < s.currentIndex := by omega
    have hupd := update_trim cfg ha hne hcur htrim
    have hmin : min s.currentIndex (cfg.maxHistory - 1) = s.currentIndex := by omega
    rw [hupd, hmin]
    have hlen : ((s.history.take (s.currentIndex + 1) ++ [b]).drop 1).length
        = s.currentIndex + 1 := by
      rw [List.length_drop, List.length_append, take_succ_length hcur]
      simp
    rw [undo_mk]
    constructor
    · rw [currentData_mk, List.getElem?_drop]
      have harith : 1 + (s.currentIndex - 1) = s.currentIndex := by omega
      rw [harith]
      exact nh_getElem_cursor ha b hcur
    · rw [redo_mk_lt _ _ (by rw [hlen]; omega)]
      rw [currentData_mk, List.getElem?_drop]
      have harith : 1 + (s.currentIndex - 1 + 1) = s.currentIndex + 1 := by omega
      rw [harith]
      exact nh_getElem_next s b hcur
  · -- room left: plain append
    have hupd := update_no_trim cfg ha hne hcur (by omega)
    rw [hupd]
    have hlen : (s.history.take (s.currentIndex + 1) ++ [b]).length
        = s.currentIndex + 2 := by
      rw [List.length_append, take_succ_length hcur]
      simp
    rw [undo_mk, Nat.add_sub_cancel]
    constructor
    · rw [currentData_mk]
      exact nh_getElem_cursor ha b hcur
    · rw [redo_mk_lt _ _ (by rw [hlen]; omega)]
      rw [currentData_mk]
      exact nh_getElem_next s b hcur

/-- Witness for the amended C7 at a concrete input. -/
theorem c7_undo_redo_roundtrip_amended_witness :
    currentData (undo (update cfgC7 1 ⟨[0], 0⟩)) = some 0 ∧
    currentData (redo (undo (update cfgC7 1 ⟨[0], 0⟩))) = some 1 :=
  c7_undo_redo_roundtrip_amended Int cfgC7 ⟨[0], 0⟩ 0 1 (by decide) (by decide)
    (by decide) (by decide) (by decide)

/-! ## Characterization of a committing `update` issued at the tail -/

/-- One committing `update` from a state whose cursor sits on the last
snapshot: the length becomes `min (len + 1) maxHistory`, the cursor stays
on the last snapshot, and the value at the cursor is the new value. -/
theorem commit_step {T : Type} (cfg : Config T) (hmax : 1 ≤ cfg.maxHistory)
    {s : HistState T} {c : T}
    (hcap : s.history.length ≤ cfg.maxHistory)
    (htail : s.currentIndex + 1 = s.history.length)
    (hc : currentData s = some c)
    {v : T} (hne : cfg.serialize v ≠ cfg.serialize c) :
    (update cfg v s).history.length = min (s.history.length + 1) cfg.maxHistory ∧
    (update cfg v s).currentIndex + 1 = (update cfg v s).history.length ∧
    currentData (update cfg v s) = some v := by
  have hcur : s.currentIndex + 1 ≤ s.history.length := le_of_eq htail
  by_cases htrim : cfg.maxHistory < s.currentIndex + 2
  · have hupd := update_trim cfg hc hne hcur htrim
    have hmin : min s.currentIndex (cfg.maxHistory - 1) = cfg.maxHistory - 1 := by omega
    rw [hupd, hmin]
    have hlen : ((s.history.take (s.currentIndex + 1) ++ [v]).drop 1).length
        = s.currentIndex + 1 := by
      rw [List.length_drop, List.length_append, take_succ_length hcur]
      simp
    refine ⟨?_, ?_, ?_⟩
    · show ((s.history.take (s.currentIndex + 1) ++ [v]).drop 1).length
        = min (s.history.length + 1) cfg.maxHistory
      rw [hlen]
      omega
    · show cfg.maxHistory - 1 + 1
        = ((s.history.take (s.currentIndex + 1) ++ [v]).drop 1).length
      rw [hlen]
      omega
    · rw [currentData_mk, List.getElem?_drop]
      have harith : 1 + (cfg.maxHistory - 1) = s.currentIndex + 1 := by omega
      rw [harith]
      exact nh_getElem_next s v hcur
  · have hupd := update_no_trim cfg hc hne hcur (by omega)
    rw [hupd]
    have hlen : (s.history.take (s.currentIndex + 1) ++ [v]).length
        = s.currentIndex + 2 := by
      rw [List.length_append, take_succ_length hcur]
      simp
    refine ⟨?_, ?_, ?_⟩
    · show (s.history.take (s.currentIndex + 1) ++ [v]).length
        = min (s.history.length + 1) cfg.maxHistory
      rw [hlen]
      omega
    · show s.currentIndex + 1 + 1 = (s.history.take (s.currentIndex + 1) ++ [v]).length
      rw [hlen]
    · rw [currentData_mk]
      exact nh_getElem_next s v hcur

theorem applyUpdates_cons {T : Type} (cfg : Config T) (v : T) (vs : List T)
    (s : HistState T) :
    applyUpdates cfg (v :: vs) s = applyUpdates cfg vs (update cfg v s) := rfl

/-- Folding a chain of pairwise-committing updates from a tail state: the
length grows by one per call, saturating at `maxHistory`; the cursor stays
at the tail and the value at the cursor is the last value of the chain. -/
theorem applyUpdates_tail_chain {T : Type} (cfg : Config T) (hmax : 1 ≤ cfg.maxHistory)
    (vs : List T) :
    ∀ (s : HistState T) (c : T),
      s.history.length ≤ cfg.maxHistory →
      s.currentIndex + 1 = s.history.length →
      currentData s = some c →
      List.Chain' (fun x y => cfg.serialize x ≠ cfg.serialize y) (c :: vs) →
      (applyUpdates cfg vs s).history.length
          = min (s.history.length + vs.length) cfg.maxHistory ∧
      (applyUpdates cfg vs s).currentIndex + 1 = (applyUpdates cfg vs s).history.length ∧
      currentData (applyUpdates cfg vs s)
          = some ((c :: vs).getLast (List.cons_ne_nil c vs)) := by
  induction vs with
  | nil =>
    intro s c hcap htail hc _
    refine ⟨?_, htail, hc⟩
    show s.history.length = min (s.history.length + 0) cfg.maxHistory
    omega
  | cons v vs ih =>
    intro s c hcap htail hc hchain
    rw [List.chain'_cons] at hchain
    obtain ⟨hcv, hchain⟩ := hchain
    obtain ⟨hlen1, htail1, hcur1⟩ := commit_step cfg hmax hcap htail hc (Ne.symm hcv)
    have hcap1 : (update cfg v s).history.length ≤ cfg.maxHistory := by
      rw [hlen1]; omega
    obtain ⟨ihlen, ihtail, ihcur⟩ := ih (update cfg v s) v hcap1 htail1 hcur1 hchain
    rw [applyUpdates_cons]
    refine ⟨?_, ihtail, ?_⟩
    · rw [ihlen, hlen1]
      simp only [List.length_cons]
      omega
    · rw [ihcur]
      congr 1

/-! ## Claim C3 -/

/-- Concrete `maxHistory = 3` configuration for the C3 trimming example. -/
def cfgC3 : Config Int :=
  ⟨3, 0, toString, intOfString, fun v => decide (v ≠ 0), 1000⟩

/-- Claim C3: starting from the initial one-element history, a sequence of
`n` updates whose serialized values are pairwise distinct (and distinct
from the initial value) yields `historyLength = min (n + 1) maxHistory`;
and in the concrete `maxHistory = 3` trimming example
`update 1; update 2; update 3; update 4` the history is `[2, 3, 4]` with
`data = 4`, two `undo`s reach `2`, and `1` (the trimmed-away snapshot) is
unreachable by any number of `undo`s. -/
theorem c3_history_length_min_law :
    (∀ (T : Type) (cfg : Config T) (vs : List T),
        1 ≤ cfg.maxHistory →
        (cfg.initialData :: vs).Pairwise (fun x y => cfg.serialize x ≠ cfg.serialize y) →
        (applyUpdates cfg vs (initState cfg)).history.length
          = min (vs.length + 1) cfg.maxHistory) ∧
    ((applyUpdates cfgC3 [1, 2, 3, 4] (initState cfgC3)).history = [2, 3, 4] ∧
      currentData (applyUpdates cfgC3 [1, 2, 3, 4] (initState cfgC3)) = some 4 ∧
      currentData (undo (undo (applyUpdates cfgC3 [1, 2, 3, 4] (initState cfgC3))))
        = some 2 ∧
      ∀ k : Nat,
        currentData (undo^[k] (applyUpdates cfgC3 [1, 2, 3, 4] (initState cfgC3)))
          ≠ some 1) := by
  constructor
  · intro T cfg vs hmax hpair
    have hres := applyUpdates_tail_chain cfg hmax vs (initState cfg) cfg.initialData
      (by show 1 ≤ cfg.maxHistory; exact hmax)
      (by show 0 + 1 = 1; rfl)
      rfl
      hpair.chain'
    rw [hres.1]
    show min (1 + vs.length) cfg.maxHistory = min (vs.length + 1) cfg.maxHistory
    omega
  · refine ⟨by decide, by decide, by decide, ?_⟩
    intro k hcontra
    have hmem : (1 : Int)
        ∈ (undo^[k] (applyUpdates cfgC3 [1, 2, 3, 4] (initState cfgC3))).history :=
      List.getElem?_mem hcontra
    rw [undo_iter_history] at hmem
    have hhist : (applyUpdates cfgC3 [1, 2, 3, 4] (initState cfgC3)).history
        = [2, 3, 4] := by decide
    rw [hhist] at hmem
    exact absurd hmem (by decide)

/-- Witness for the universally quantified part of C3 at the concrete
trimming example. -/
theorem c3_history_length_min_law_witness :
    (applyUpdates cfgC3 [1, 2, 3, 4] (initState cfgC3)).history.length
      = min (([1, 2, 3, 4] : List Int).length + 1) cfgC3.maxHistory :=
  c3_history_length_min_law.1 Int cfgC3 [1, 2, 3, 4] (by decide) (by decide)

/-! ## Claim C4 -/

/-- Concrete configuration for the C4 counterexample and witness. -/
def cfgC4 : Config Int :=
  ⟨100, 0, toString, intOfString, fun v => decide (v ≠ 0), 1000⟩

/-- Counterexample to claim C4 as stated: after the caller has issued the
mutation `update 1` (history `[0, 1]`, cursor `1`), a successful resolution
of the stale initial load with stored string `"5"` is *not* discarded: the
handler of lines 90-93 checks only the mounted flag, so it replaces the
whole history with `[5]` and resets the cursor to `0`. -/
theorem c4_stale_load_overwrites_counterexample :
    (update cfgC4 1 (initState cfgC4)).history = [0, 1] ∧
    (update cfgC4 1 (initState cfgC4)).currentIndex = 1 ∧
    loadResolve cfgC4 true (some "5") (update cfgC4 1 (initState cfgC4)) = ⟨[5], 0⟩ ∧
    (⟨[5], 0⟩ : HistState Int) ≠ update cfgC4 1 (initState cfgC4) := by
  decide

/-- Claim C4 amended: a successful load of a non-empty stored string whose
deserialized value is truthy replaces the in-memory history and cursor
whenever the instance is still mounted -- even if mutations were already
issued; it is discarded only when the instance has unmounted. -/
theorem c4_load_resolution_amended (T : Type) (cfg : Config T)
    (s : HistState T) (str : String)
    (hstr : str ≠ "")
    (htruthy : cfg.jsTruthy (cfg.deserialize str) = true) :
    loadResolve cfg true (some str) s = ⟨[cfg.deserialize str], 0⟩ ∧
    loadResolve cfg false (some str) s = s := by
  constructor
  · rw [loadResolve_some, if_neg hstr]
    simp [htruthy]
  · rw [loadResolve_some, if_neg hstr]
    simp

/-- Witness for the amended C4: the stale load applied after a mutation,
and the unmount case. -/
theorem c4_load_resolution_amended_witness :
    loadResolve cfgC4 true (some "5") ⟨[0, 1], 1⟩ = ⟨[5], 0⟩ ∧
    loadResolve cfgC4 false (some "5") ⟨[0, 1], 1⟩ = ⟨[0, 1], 1⟩ :=
  c4_load_resolution_amended Int cfgC4 ⟨[0, 1], 1⟩ "5" (by decide) (by decide)

/-! ## Timed persistence model: debounce timer, backing store, event traces -/

/-- The persistence side of one hook instance: the single pending debounce
timer slot `debounceTimerRef` (line 69) as an optional `(deadline, value)`
pair, the content under the instance's `storageKey`, and the chronological
log of every backend `set` call performed (line 115). -/
structure Gateway (T : Type) where
  timer : Option (Nat × T)
  store : Option String
  setLog : List String
deriving DecidableEq, Repr

/-- `saveToStorage` (lines 104-130) when `persist` is on: `clearTimeout` of
any pending timer (lines 108-110) followed by `setTimeout` for
`debounceTime` ms (line 112) -- i.e. the single timer slot is overwritten
with the new value and a fresh deadline. -/
def scheduleSave {T : Type} (cfg : Config T) (now : Nat) (v : T) (g : Gateway T) : Gateway T :=
  { g with timer := some (now + cfg.debounceTime, v) }

/-- The event loop firing the pending timer once its deadline has passed
(body of the `setTimeout` callback, lines 112-127, successful-backend
case): `localStorage.setItem(storageKey, serialize(data))`. -/
def fireIfDue {T : Type} (cfg : Config T) (now : Nat) (g : Gateway T) : Gateway T :=
  match g.timer with
  | none => g
  | some (deadline, v) =>
      if deadline ≤ now then
        ⟨none, some (cfg.serialize v), g.setLog ++ [cfg.serialize v]⟩
      else g

/-- A full instance: in-memory history state plus persistence state. -/
structure Sys (T : Type) where
  hist : HistState T
  gw : Gateway T
deriving DecidableEq, Repr

/-- Caller-issued operations. -/
inductive Ev (T : Type) where
  | update (v : T)
  | doUndo
  | doRedo
  | doClear

/-- One caller-issued operation at wall-clock instant `now`:
* `update` (lines 133-166): mutate the history; schedule a debounced save
  of the new value only when the commit actually happens (line 158 is
  unreachable from the serialized-equal early return of lines 143-145);
* `undo`/`redo` (lines 169-184): move the cursor and schedule a save of
  the value moved to;
* `clear` (lines 187-193): reset the history and delete the persisted key
  immediately -- the pending debounce timer is NOT cancelled. -/
def stepEv {T : Type} (cfg : Config T) (now : Nat) (e : Ev T) (s : Sys T) : Sys T :=
  match e with
  | .update v =>
      ⟨update cfg v s.hist,
        if sameAsCurrent cfg v s.hist then s.gw else scheduleSave cfg now v s.gw⟩
  | .doUndo =>
      if 0 < s.hist.currentIndex then
        ⟨undo s.hist,
          match s.hist.history[s.hist.currentIndex - 1]? with
          | some prev => scheduleSave cfg now prev s.gw
          | none => s.gw⟩
      else s
  | .doRedo =>
      if s.hist.currentIndex < s.hist.history.length - 1 then
        ⟨redo s.hist,
          match s.hist.history[s.hist.currentIndex + 1]? with
          | some nxt => scheduleSave cfg now nxt s.gw
          | none => s.gw⟩
      else s
  | .doClear =>
      ⟨initState cfg, { s.gw with store := none }⟩

/-- Run a chronological list of timed operations; before each operation the
event loop fires the pending timer if its deadline has passed. -/
def runEvents {T : Type} (cfg : Config T) : List (Nat × Ev T) → Sys T → Sys T
  | [], s => s
  | (t, e) :: rest, s =>
      runEvents cfg rest (stepEv cfg t e ⟨s.hist, fireIfDue cfg t s.gw⟩)

/-- Let the event loop run until instant `t` with no further operations. -/
def flushAt {T : Type} (cfg : Config T) (t : Nat) (s : Sys T) : Sys T :=
  ⟨s.hist, fireIfDue cfg t s.gw⟩

theorem runEvents_cons {T : Type} (cfg : Config T) (t : Nat) (e : Ev T)
    (rest : List (Nat × Ev T)) (s : Sys T) :
    runEvents cfg ((t, e) :: rest) s
      = runEvents cfg rest (stepEv cfg t e ⟨s.hist, fireIfDue cfg t s.gw⟩) := rfl

theorem fireIfDue_noTimer {T : Type} (cfg : Config T) (now : Nat) {g : Gateway T}
    (h : g.timer = none) : fireIfDue cfg now g = g := by
  unfold fireIfDue
  rw [h]

theorem fireIfDue_early {T : Type} (cfg : Config T) {now d : Nat} {v : T}
    {g : Gateway T} (h : g.timer = some (d, v)) (hd : now < d) :
    fireIfDue cfg now g = g := by
  unfold fireIfDue
  rw [h]
  dsimp only
  rw [if_neg (by omega)]

theorem fireIfDue_due {T : Type} (cfg : Config T) {now d : Nat} {v : T}
    {g : Gateway T} (h : g.timer = some (d, v)) (hd : d ≤ now) :
    fireIfDue cfg now g = ⟨none, some (cfg.serialize v), g.setLog ++ [cfg.serialize v]⟩ := by
  unfold fireIfDue
  rw [h]
  dsimp only
  rw [if_pos hd]

theorem stepEv_update_commits {T : Type} (cfg : Config T) (now : Nat) (v : T)
    (h : HistState T) (g : Gateway T) (hsame : sameAsCurrent cfg v h = false) :
    stepEv cfg now (Ev.update v) ⟨h, g⟩
      = ⟨update cfg v h, { g with timer := some (now + cfg.debounceTime, v) }⟩ := by
  unfold stepEv
  dsimp only
  rw [hsame]
  simp [scheduleSave]

/-! ## Claim C10 -/

/-- Concrete configuration for the C10 trace. -/
def cfgC10 : Config Int :=
  ⟨100, 0, toString, intOfString, fun v => decide (v ≠ 0), 1000⟩

/-- Claim C10: `clear` never touches the pending debounce timer (it only
resets the history and deletes the key), and in the concrete trace
`update 7` at `t = 0`, `clear` at `t = 400`, timer expiry at `t = 1000`,
the timer scheduled by the update fires after `clear` has deleted the key,
so the backing store ends up holding the serialization of `7` again
instead of staying empty. -/
theorem c10_clear_keeps_pending_write :
    (∀ (cfg : Config Int) (t : Nat) (s : Sys Int),
        (stepEv cfg t Ev.doClear s).gw.timer = s.gw.timer ∧
        (stepEv cfg t Ev.doClear s).gw.store = none) ∧
    ((runEvents cfgC10 [(0, Ev.update 7), (400, Ev.doClear)]
        ⟨initState cfgC10, ⟨none, none, []⟩⟩).gw.store = none ∧
      (flushAt cfgC10 1000
        (runEvents cfgC10 [(0, Ev.update 7), (400, Ev.doClear)]
          ⟨initState cfgC10, ⟨none, none, []⟩⟩)).gw.store = some (cfgC10.serialize 7) ∧
      (flushAt cfgC10 1000
        (runEvents cfgC10 [(0, Ev.update 7), (400, Ev.doClear)]
          ⟨initState cfgC10, ⟨none, none, []⟩⟩)).gw.setLog = [cfgC10.serialize 7]) :=
  ⟨fun _ _ _ => ⟨rfl, rfl⟩, by decide⟩

/-! ## Claim C5 -/

/-- Concrete configuration for the C5 witness. -/
def cfgC5 : Config Int :=
  ⟨100, 0, toString, intOfString, fun v => decide (v ≠ 0), 1000⟩

/-- Running a nonempty chronological list of value-changing updates whose
consecutive gaps are each strictly below `debounceTime`, starting with a
pending timer whose deadline the first update precedes: no timer ever
fires, so the store and the set-call log stay untouched, and the single
timer slot ends up holding the last value with deadline
`t_last + debounceTime`. -/
theorem runUpdates_window {T : Type} (cfg : Config T) (hmax : 1 ≤ cfg.maxHistory) :
    ∀ (rest : List (Nat × T)) (t : Nat) (v : T) (s : HistState T) (c : T)
      (d : Nat) (w : T) (st : Option String) (log : List String),
      s.history.length ≤ cfg.maxHistory →
      s.currentIndex + 1 = s.history.length →
      currentData s = some c →
      List.Chain' (fun a b => cfg.serialize a ≠ cfg.serialize b)
        (c :: ((t, v) :: rest).map Prod.snd) →
      List.Chain' (fun a b => b.1 < a.1 + cfg.debounceTime) ((t, v) :: rest) →
      t < d →
      (runEvents cfg (((t, v) :: rest).map (fun p => (p.1, Ev.update p.2)))
          ⟨s, ⟨some (d, w), st, log⟩⟩).gw
        = ⟨some ((((t, v) :: rest).getLast (List.cons_ne_nil _ _)).1 + cfg.debounceTime,
            (((t, v) :: rest).getLast (List.cons_ne_nil _ _)).2), st, log⟩ := by
  intro rest
  induction rest with
  | nil =>
    intro t v s c d w st log hcap htail hc hchain hwin htd
    simp only [List.map_cons] at hchain
    obtain ⟨hcv, -⟩ := List.chain'_cons.mp hchain
    have hsame : sameAsCurrent cfg v s = false :=
      sameAsCurrent_eq_false cfg hc (Ne.symm hcv)
    simp only [List.map_cons, List.map_nil]
    rw [runEvents_cons]
    dsimp only [fireIfDue]
    rw [if_neg (by omega)]
    rw [stepEv_update_commits cfg t v _ _ hsame]
    rfl
  | cons p rest ih =>
    obtain ⟨tp, vp⟩ := p
    intro t v s c d w st log hcap htail hc hchain hwin htd
    simp only [List.map_cons] at hchain
    obtain ⟨hcv, hchain'⟩ := List.chain'_cons.mp hchain
    obtain ⟨hpt, hwin'⟩ := List.chain'_cons.mp hwin
    have hsame : sameAsCurrent cfg v s = false :=
      sameAsCurrent_eq_false cfg hc (Ne.symm hcv)
    obtain ⟨hlen1, htail1, hcur1⟩ := commit_step cfg hmax hcap htail hc (Ne.symm hcv)
    have hcap1 : (update cfg v s).history.length ≤ cfg.maxHistory := by
      rw [hlen1]; omega
    simp only [List.map_cons]
    rw [runEvents_cons]
    dsimp only [fireIfDue]
    rw [if_neg (by omega)]
    rw [stepEv_update_commits cfg t v _ _ hsame]
    dsimp only
    exact ih tp vp (update cfg v s) v (t + cfg.debounceTime) v st log hcap1 htail1 hcur1
      hchain' hwin' hpt

/-- Claim C5: every nonempty sequence of value-changing updates issued
inside one debounce window (each call strictly less than `debounceTime`
after the previous) produces exactly one backend `set` call, carrying the
last value of the sequence; all earlier values in the window are superseded
and never written. -/
theorem c5_debounce_coalescing (T : Type) (cfg : Config T)
    (x0 v1 : T) (t1 : Nat) (rest : List (Nat × T)) (tf : Nat)
    (hmax : 1 ≤ cfg.maxHistory)
    (hchain : List.Chain' (fun a b => cfg.serialize a ≠ cfg.serialize b)
      (x0 :: ((t1, v1) :: rest).map Prod.snd))
    (hwin : List.Chain' (fun a b => b.1 < a.1 + cfg.debounceTime) ((t1, v1) :: rest))
    (htf : (((t1, v1) :: rest).getLast (List.cons_ne_nil _ _)).1 + cfg.debounceTime ≤ tf) :
    (flushAt cfg tf
        (runEvents cfg (((t1, v1) :: rest).map (fun p => (p.1, Ev.update p.2)))
          ⟨⟨[x0], 0⟩, ⟨none, none, []⟩⟩)).gw.setLog
      = [cfg.serialize (((t1, v1) :: rest).getLast (List.cons_ne_nil _ _)).2] := by
  simp only [List.map_cons] at hchain
  obtain ⟨h01, hchain'⟩ := List.chain'_cons.mp hchain
  have hsame1 : sameAsCurrent cfg v1 (⟨[x0], 0⟩ : HistState T) = false :=
    sameAsCurrent_eq_false cfg (s := ⟨[x0], 0⟩) (c := x0) rfl (Ne.symm h01)
  obtain ⟨hlen1, htail1, hcur1⟩ :=
    commit_step cfg hmax (s := ⟨[x0], 0⟩) (c := x0)
      (by show 1 ≤ cfg.maxHistory; exact hmax) rfl rfl (Ne.symm h01)
  have hcap1 : (update cfg v1 ⟨[x0], 0⟩).history.length ≤ cfg.maxHistory := by
    rw [hlen1]; omega
  simp only [List.map_cons]
  rw [runEvents_cons]
  dsimp only [fireIfDue]
  rw [stepEv_update_commits cfg t1 v1 _ _ hsame1]
  dsimp only
  cases rest with
  | nil =>
    dsimp only [runEvents, flushAt, fireIfDue]
    rw [if_pos (show t1 + cfg.debounceTime ≤ tf from htf)]
    rfl
  | cons p rest =>
    obtain ⟨tp, vp⟩ := p
    obtain ⟨hpt, hwin'⟩ := List.chain'_cons.mp hwin
    have hrun := runUpdates_window cfg hmax rest tp vp (update cfg v1 ⟨[x0], 0⟩) v1
      (t1 + cfg.debounceTime) v1 none [] hcap1 htail1 hcur1 hchain' hwin' hpt
    dsimp only [flushAt]
    rw [hrun]
    dsimp only [fireIfDue]
    rw [if_pos (show (((tp, vp) :: rest).getLast (List.cons_ne_nil _ _)).1
        + cfg.debounceTime ≤ tf from htf)]
    rfl

/-- Witness for C5 at a concrete three-update window. -/
theorem c5_debounce_coalescing_witness :
    (flushAt cfgC5 1900
        (runEvents cfgC5 [(0, Ev.update 1), (500, Ev.update 2), (900, Ev.update 3)]
          ⟨⟨[0], 0⟩, ⟨none, none, []⟩⟩)).gw.setLog = [cfgC5.serialize 3] := by
  have hchain : List.Chain' (fun a b => cfgC5.serialize a ≠ cfgC5.serialize b)
      ((0 : Int) :: (((0, 1) : Nat × Int) :: [(500, 2), (900, 3)]).map Prod.snd) :=
    List.Chain.cons (by decide) (List.Chain.cons (by decide)
      (List.Chain.cons (by decide) List.Chain.nil))
  have hwin : List.Chain' (fun a b => b.1 < a.1 + cfgC5.debounceTime)
      (((0, 1) : Nat × Int) :: [(500, 2), (900, 3)]) :=
    List.Chain.cons (by decide) (List.Chain.cons (by decide) List.Chain.nil)
  exact c5_debounce_coalescing Int cfgC5 0 1 0 [(500, 2), (900, 3)] 1900 (by decide)
    hchain hwin (by decide)

/-! ## Claim C8 -/

/-- Concrete configuration for the C8 counterexample (`initialData = 1`). -/
def cfgC8 : Config Int :=
  ⟨100, 1, toString, intOfString, fun v => decide (v ≠ 0), 1000⟩

/-- Counterexample to claim C8 as stated: for the falsy value `v = 0`
(which satisfies the claim's round-trip assumption
`deserialize (serialize 0) = 0`), `update 0` is committed and flushed to
the store, but the fresh instance's load handler rejects the restored
value at line 90 because `result.data` is falsy, so the fresh instance
keeps its `initialData = 1` instead of `0`. -/
theorem c8_falsy_roundtrip_counterexample :
    cfgC8.deserialize (cfgC8.serialize 0) = 0 ∧
    (flushAt cfgC8 1000 (runEvents cfgC8 [(0, Ev.update 0)]
        ⟨initState cfgC8, ⟨none, none, []⟩⟩)).gw.store = some (cfgC8.serialize 0) ∧
    loadResolve cfgC8 true
        ((flushAt cfgC8 1000 (runEvents cfgC8 [(0, Ev.update 0)]
          ⟨initState cfgC8, ⟨none, none, []⟩⟩)).gw.store) (initState cfgC8)
      = initState cfgC8 ∧
    currentData (loadResolve cfgC8 true
        ((flushAt cfgC8 1000 (runEvents cfgC8 [(0, Ev.update 0)]
          ⟨initState cfgC8, ⟨none, none, []⟩⟩)).gw.store) (initState cfgC8))
      = some 1 ∧
    (1 : Int) ≠ 0 := by
  decide

/-- Claim C8 amended: the persistence round-trip holds provided the update
actually commits (`serialize v` differs from the current serialized form),
the stored string is non-empty, and the restored value is truthy: after
`update v`, a flush past the debounce deadline, and a fresh instance load
from the resulting store, the fresh instance holds exactly `[v]` with
cursor `0`. -/
theorem c8_roundtrip_amended (T : Type) (cfg : Config T) (v : T) (t0 tf : Nat)
    (hmax : 1 ≤ cfg.maxHistory)
    (hne : cfg.serialize v ≠ cfg.serialize cfg.initialData)
    (hser : cfg.deserialize (cfg.serialize v) = v)
    (htruthy : cfg.jsTruthy v = true)
    (hnonempty : cfg.serialize v ≠ "")
    (htf : t0 + cfg.debounceTime ≤ tf) :
    (flushAt cfg tf (runEvents cfg [(t0, Ev.update v)]
        ⟨initState cfg, ⟨none, none, []⟩⟩)).gw.store = some (cfg.serialize v) ∧
    loadResolve cfg true (some (cfg.serialize v)) (initState cfg) = ⟨[v], 0⟩ ∧
    currentData (loadResolve cfg true (some (cfg.serialize v)) (initState cfg))
      = some v := by
  have hsame : sameAsCurrent cfg v (initState cfg) = false :=
    sameAsCurrent_eq_false cfg (s := initState cfg) (c := cfg.initialData) rfl hne
  have hload : loadResolve cfg true (some (cfg.serialize v)) (initState cfg)
      = ⟨[v], 0⟩ := by
    rw [loadResolve_some, if_neg hnonempty, hser, htruthy]
    simp
  refine ⟨?_, hload, by rw [hload]; rfl⟩
  rw [runEvents_cons]
  dsimp only [fireIfDue]
  rw [stepEv_update_commits cfg t0 v _ _ hsame]
  dsimp only [runEvents, flushAt, fireIfDue]
  rw [if_pos htf]

/-- Concrete configuration for the C8 witness. -/
def cfgC8w : Config Int :=
  ⟨100, 1, toString, intOfString, fun v => decide (v ≠ 0), 1000⟩

/-- Witness for the amended C8 with the truthy value `5`. -/
theorem c8_roundtrip_amended_witness :
    (flushAt cfgC8w 1000 (runEvents cfgC8w [(0, Ev.update 5)]
        ⟨initState cfgC8w, ⟨none, none, []⟩⟩)).gw.store = some (cfgC8w.serialize 5) ∧
    loadResolve cfgC8w true (some (cfgC8w.serialize 5)) (initState cfgC8w)
      = ⟨[5], 0⟩ ∧
    currentData (loadResolve cfgC8w true (some (cfgC8w.serialize 5)) (initState cfgC8w))
      = some 5 :=
  c8_roundtrip_amended Int cfgC8w 5 0 1000 (by decide) (by decide) (by decide)
    (by decide) (by decide) (by decide)

/-! ## Fallible-collaborator model for error propagation (claim C9)

`Except`-valued collaborators model a serializer or backing-store call that
may throw; an `Except.error` escaping a public operation models an
exception propagating to its caller, while the `TC` type models the result
object of the `tryCatch` wrapper, which always returns normally. -/

/-- Result object of the `tryCatch` helper from `@pidchashyi/try-catch`:
`{status: "success", data}` or `{status: "error", error}` (the error having
also been passed to the `onError` callback); it is returned, never thrown. -/
inductive TC (A E : Type) where
  | success (data : A)
  | failure (error : E)

/-- `tryCatch` itself: converts a possibly-throwing computation into a
normally returned `TC` result. -/
def tryCatchModel {A E : Type} (x : Except E A) : TC A E :=
  match x with
  | .ok a => .success a
  | .error e => .failure e

/-- Body of the debounced timer callback (lines 112-127): both `serialize`
and `localStorage.setItem` run inside `tryCatch`, so neither failure can
propagate; the total return type records that. -/
def fireSaveBody {T E : Type} (serE : T → Except E String)
    (setE : String → Except E Unit) (v : T) : TC Unit E :=
  tryCatchModel (serE v >>= setE)

/-- Body of the one-time load (lines 76-88): `localStorage.getItem` and
`deserialize` run inside `tryCatch`; line 80 maps `null` or an empty
string to a `null` result without touching the deserializer. -/
def loadBody {T E : Type} (getR : Except E (Option String))
    (desE : String → Except E T) : TC (Option T) E :=
  tryCatchModel (getR >>= fun stored =>
    match stored with
    | none => Except.ok none
    | some str =>
        if str = "" then Except.ok none
        else (desE str).map some)

/-- The synchronous body of `update` with a fallible serializer: line 143
evaluates `serialize(nextData)` and then `serialize(currentData)` outside
any `tryCatch`, so a serializer exception escapes to the caller of
`update`.  (When the cursor is out of range `currentData` is `undefined`
and the default codec turns it into a non-string without throwing, so that
branch commits.) -/
def updateE {T E : Type} (maxHistory : Nat) (serE : T → Except E String)
    (next : T) (s : HistState T) : Except E (HistState T) :=
  serE next >>= fun sn =>
    match s.history[s.currentIndex]? with
    | none => Except.ok (commitPush maxHistory next s)
    | some cur =>
        serE cur >>= fun sc =>
          if sn = sc then
            Except.ok { s with currentIndex := min (s.currentIndex + 1) (maxHistory - 1) }
          else
            Except.ok (commitPush maxHistory next s)

/-- The body of `clear` (lines 187-193): the in-memory reset always
happens first, but `localStorage.removeItem` at line 191 is not wrapped in
`tryCatch`, so a backend delete failure escapes to the caller of `clear`.
An `error` result means the exception propagated. -/
def clearE {T E : Type} (cfg : Config T) (removeResult : Except E Unit) :
    Except E (HistState T) :=
  match removeResult with
  | .error e => .error e
  | .ok _ => .ok (initState cfg)

/-- Concrete configuration for the C9 evaluations. -/
def cfgC9 : Config Int :=
  ⟨100, 0, toString, intOfString, fun v => decide (v ≠ 0), 1000⟩

/-- Counterexample to claim C9 as stated: with a serializer that throws,
`update 1` from the fresh state propagates the serializer's exception to
its caller instead of confining it to the error channel (line 143 runs
outside any `tryCatch`). -/
theorem c9_serializer_error_escapes_update :
    updateE (T := Int) (E := String) 100 (fun _ => Except.error "serialize boom") 1
        ⟨[0], 0⟩
      = Except.error "serialize boom" := rfl

/-- Claim C9 amended: `undo` and `redo` never throw (their synchronous
bodies call no fallible collaborator), and failures of the backing store
or serializer inside the deferred load and the debounced save are captured
by `tryCatch` and reported through the error channel; but a serializer
failure propagates out of `update`, and a backing-store delete failure
propagates out of `clear`. -/
theorem c9_error_channel_amended :
    (∀ (T E : Type) (serE : T → Except E String) (setE : String → Except E Unit)
        (v : T) (str : String) (e : E),
        serE v = Except.ok str → setE str = Except.error e →
        fireSaveBody serE setE v = TC.failure e) ∧
    (∀ (T E : Type) (serE : T → Except E String) (setE : String → Except E Unit)
        (v : T) (e : E),
        serE v = Except.error e →
        fireSaveBody serE setE v = TC.failure e) ∧
    (∀ (T E : Type) (desE : String → Except E T) (e : E),
        loadBody (Except.error e) desE = TC.failure e) ∧
    (∀ (T E : Type) (desE : String → Except E T) (str : String) (e : E),
        str ≠ "" → desE str = Except.error e →
        loadBody (Except.ok (some str)) desE = TC.failure e) ∧
    (∀ (T E : Type) (cfg : Config T) (e : E),
        clearE (E := E) cfg (Except.error e) = Except.error e) ∧
    (∀ (T E : Type) (maxH : Nat) (serE : T → Except E String) (next : T)
        (s : HistState T) (e : E),
        serE next = Except.error e → updateE maxH serE next s = Except.error e) := by
  refine ⟨?_, ?_, ?_, ?_, ?_, ?_⟩
  · intro T E serE setE v str e hser hset
    unfold fireSaveBody
    rw [show serE v >>= setE = setE str by rw [hser]; rfl]
    rw [hset]
    rfl
  · intro T E serE setE v e hser
    unfold fireSaveBody
    rw [show serE v >>= setE = Except.error e by rw [hser]; rfl]
    rfl
  · intro T E desE e
    rfl
  · intro T E desE str e hstr hdes
    unfold loadBody
    rw [show (Except.ok (some str) >>= fun stored =>
        match stored with
        | none => Except.ok none
        | some str =>
            if str = "" then Except.ok none
            else (desE str).map some) = if str = "" then Except.ok none
            else (desE str).map some from rfl]
    rw [if_neg hstr, hdes]
    rfl
  · intro T E cfg e
    rfl
  · intro T E maxH serE next s e hser
    unfold updateE
    rw [hser]
    rfl

/-- Witness for the amended C9: a quota-style `setItem` failure confined by
the debounced save, a deserialize failure confined by the load, a delete
failure propagating out of `clear`, and a serializer failure propagating
out of `update`, all at concrete inputs. -/
theorem c9_error_channel_amended_witness :
    fireSaveBody (fun n : Int => Except.ok (toString n)) (fun _ => Except.error "quota") 7
      = TC.failure "quota" ∧
    loadBody (T := Int) (Except.ok (some "bad")) (fun _ => Except.error "parse")
      = TC.failure "parse" ∧
    clearE (E := String) cfgC9 (Except.error "denied") = Except.error "denied" ∧
    updateE (E := String) 100 (fun _ : Int => Except.error "boom") 2 ⟨[0, 1], 1⟩
      = Except.error "boom" :=
  ⟨c9_error_channel_amended.1 Int String _ _ 7 "7" "quota" rfl rfl,
   c9_error_channel_amended.2.2.2.1 Int String _ "bad" "parse" (by decide) rfl,
   c9_error_channel_amended.2.2.2.2.1 Int String cfgC9 "denied",
   c9_error_channel_amended.2.2.2.2.2 Int String 100 _ 2 ⟨[0, 1], 1⟩ "boom" rfl⟩

end StateHistory
